import Mathlib

/-
Verification of the PiggyBank Concordium smart contract (src/src/lib.rs).

The contract is a two-state machine (`Intact` / `Smashed`) with four entry
points: `piggy_init`, `piggy_insert` (payable), `piggy_smash` (mutable) and
`piggy_view`.  We give a shallow embedding of the contract functions over an
explicit host state.  The host (`Host`) carries the persisted contract state,
the contract account's balance (in micro CCD, modelled as a natural number)
and the list of transfers the host has settled on the contract's behalf.
Account addresses are abstracted to naturals, since the contract only ever
compares addresses for equality.  The outcome of the host-level
`invoke_transfer` call is an environment input, modelled as a boolean
parameter of `piggy_smash`.
-/

namespace PiggyBank

/-- The persisted contract state, from `enum PiggyBankState` in lib.rs. -/
inductive PiggyBankState where
  | Intact
  | Smashed
deriving DecidableEq, Repr

/-- The typed error enum of `piggy_smash`, from `enum SmashError` in lib.rs. -/
inductive SmashError where
  | NotOwner
  | AlreadySmashed
  | TransferError
deriving DecidableEq, Repr

/-- A host-level rejection value (`concordium_std::Reject`): a nonzero error
code.  `ensure!(cond)` with no argument rejects with `Reject::default()`. -/
structure Reject where
  errorCode : Int
deriving DecidableEq, Repr

/-- `Reject::default()`: the generic rejection code `i32::MIN`, used by the
plain `ensure!` macro when no specific error value is given. -/
def Reject.dflt : Reject := ⟨-2147483648⟩

/-- The conversion generated by `derive(Reject)` on `SmashError`: variant
with index `i` maps to error code `-(i + 1)`. -/
def SmashError.toReject : SmashError → Reject
  | .NotOwner => ⟨-1⟩
  | .AlreadySmashed => ⟨-2⟩
  | .TransferError => ⟨-3⟩

/-- An invoking address (`concordium_std::Address`): an account or a
contract, with addresses abstracted to naturals. -/
inductive Address where
  | account (a : Nat)
  | contract (c : Nat)
deriving DecidableEq, Repr

/-- `Address::matches_account`: true iff the address is the given account. -/
def Address.matches_account : Address → Nat → Bool
  | .account a, owner => a == owner
  | .contract _, _ => false

/-- The receive context: the contract owner account (`ctx.owner()`) and the
sender of the current message (`ctx.sender()`). -/
structure ReceiveContext where
  owner : Nat
  sender : Address
deriving DecidableEq, Repr

/-- The init context.  `piggy_init` ignores it (`_ctx` in lib.rs); we keep
the origin account so the quantification over contexts is not vacuous. -/
structure InitContext where
  origin : Nat
deriving DecidableEq, Repr

/-- The host-held data visible to the contract: the persisted state slot,
the contract account's balance (`host.self_balance()`), and the transfers
the host has settled for the contract (recipient account, amount). -/
structure Host where
  state : PiggyBankState
  selfBalance : Nat
  transfers : List (Nat × Nat)
deriving DecidableEq, Repr

/-- `piggy_init`: ignores its context and returns `Ok(PiggyBankState::Intact)`. -/
def piggy_init (_ctx : InitContext) : Except Reject PiggyBankState :=
  .ok PiggyBankState.Intact

/-- `piggy_insert`: `ensure!(*host.state() == PiggyBankState::Intact); Ok(())`.
The host handle is an immutable reference in the source, so the host is
returned unchanged; the attached amount is unused (`_amount`). -/
def piggy_insert (host : Host) (_amount : Nat) : Except Reject Unit × Host :=
  if host.state = PiggyBankState.Intact then (.ok (), host)
  else (.error Reject.dflt, host)

/-- `piggy_smash`: checks `sender.matches_account(&owner)` (else `NotOwner`),
then `*host.state() == Intact` (else `AlreadySmashed`), then sets the state
to `Smashed`, reads `host.self_balance()` and calls
`host.invoke_transfer(&owner, balance)`.  `transferOk` is the outcome of that
host call; on success the host settles the transfer (debiting the balance and
recording the transfer), on failure the function returns `TransferError` with
the state already mutated. -/
def piggy_smash (ctx : ReceiveContext) (transferOk : Bool) (host : Host) :
    Except SmashError Unit × Host :=
  if ctx.sender.matches_account ctx.owner then
    if host.state = PiggyBankState.Intact then
      let host1 : Host := { host with state := PiggyBankState.Smashed }
      let balance : Nat := host1.selfBalance
      if transferOk then
        (.ok (), { host1 with
                    selfBalance := host1.selfBalance - balance,
                    transfers := host1.transfers ++ [(ctx.owner, balance)] })
      else (.error SmashError.TransferError, host1)
    else (.error SmashError.AlreadySmashed, host)
  else (.error SmashError.NotOwner, host)

/-- `piggy_view`: reads the state and the balance through an immutable host
handle and returns them; the host is unchanged. -/
def piggy_view (host : Host) : Except Reject (PiggyBankState × Nat) × Host :=
  (.ok (host.state, host.selfBalance), host)

/-- Claim C1: `smash` invoked by the owner on `Intact` state (with the host
settling the transfer) returns success, transitions the state to `Smashed`,
and issues exactly one transfer of the full pre-call balance to the owner. -/
theorem smash_owner_intact_success (ctx : ReceiveContext) (host : Host)
    (hown : ctx.sender.matches_account ctx.owner = true)
    (hst : host.state = PiggyBankState.Intact) :
    piggy_smash ctx true host =
      (.ok (), { state := PiggyBankState.Smashed,
                 selfBalance := 0,
                 transfers := host.transfers ++ [(ctx.owner, host.selfBalance)] }) := by
  simp [piggy_smash, hown, hst]

theorem smash_owner_intact_success_witness :
    piggy_smash ⟨7, .account 7⟩ true ⟨PiggyBankState.Intact, 100, []⟩ =
      (.ok (), { state := PiggyBankState.Smashed,
                 selfBalance := 0,
                 transfers := [] ++ [(7, 100)] }) :=
  smash_owner_intact_success ⟨7, .account 7⟩ ⟨PiggyBankState.Intact, 100, []⟩
    (by decide) rfl

/-- Claim C2: across every entry point, a `Smashed` state stays `Smashed`:
`init` yields `Intact` fresh, `insert` and `view` never touch the host, and
`smash` either leaves the state unchanged or sets it to `Smashed`; hence if
the state is `Smashed` before `smash` it is `Smashed` after. -/
theorem smashed_state_terminal (ictx : InitContext) (ctx : ReceiveContext)
    (tOk : Bool) (host : Host) (amount : Nat) :
    piggy_init ictx = .ok PiggyBankState.Intact
    ∧ (piggy_insert host amount).2 = host
    ∧ (piggy_view host).2 = host
    ∧ ((piggy_smash ctx tOk host).2.state = host.state
        ∨ (piggy_smash ctx tOk host).2.state = PiggyBankState.Smashed)
    ∧ (host.state = PiggyBankState.Smashed →
        (piggy_smash ctx tOk host).2.state = PiggyBankState.Smashed) := by
  refine ⟨rfl, ?_, rfl, ?_, ?_⟩
  · unfold piggy_insert
    split <;> rfl
  · unfold piggy_smash
    split
    · split
      · split <;> simp
      · simp
    · simp
  · intro hsm
    unfold piggy_smash
    split
    · split
      · rename_i hIntact
        rw [hsm] at hIntact
        exact absurd hIntact (by decide)
      · exact hsm
    · exact hsm

theorem smashed_state_terminal_witness :
    piggy_init ⟨0⟩ = .ok PiggyBankState.Intact
    ∧ (piggy_insert ⟨PiggyBankState.Smashed, 3, []⟩ 2).2 = ⟨PiggyBankState.Smashed, 3, []⟩
    ∧ (piggy_view ⟨PiggyBankState.Smashed, 3, []⟩).2 = ⟨PiggyBankState.Smashed, 3, []⟩
    ∧ ((piggy_smash ⟨0, .account 0⟩ true ⟨PiggyBankState.Smashed, 3, []⟩).2.state
          = (⟨PiggyBankState.Smashed, 3, []⟩ : Host).state
        ∨ (piggy_smash ⟨0, .account 0⟩ true ⟨PiggyBankState.Smashed, 3, []⟩).2.state
          = PiggyBankState.Smashed)
    ∧ ((⟨PiggyBankState.Smashed, 3, []⟩ : Host).state = PiggyBankState.Smashed →
        (piggy_smash ⟨0, .account 0⟩ true ⟨PiggyBankState.Smashed, 3, []⟩).2.state
          = PiggyBankState.Smashed) :=
  smashed_state_terminal ⟨0⟩ ⟨0, .account 0⟩ true ⟨PiggyBankState.Smashed, 3, []⟩ 2

/-- Claim C3: for every amount and every state, `insert` returns success iff
the current state is `Intact`, and otherwise it returns a rejection. -/
theorem insert_ok_iff_intact (host : Host) (amount : Nat) :
    ((piggy_insert host amount).1 = .ok () ↔ host.state = PiggyBankState.Intact)
    ∧ (host.state ≠ PiggyBankState.Intact →
        (piggy_insert host amount).1 = .error Reject.dflt) := by
  obtain ⟨st, bal, trs⟩ := host
  cases st <;> simp [piggy_insert]

/-- Claim C4: `smash` invoked by a non-owner sender fails with `NotOwner`
and leaves the host untouched, regardless of state, balance, or the
transfer outcome. -/
theorem smash_not_owner (ctx : ReceiveContext) (tOk : Bool) (host : Host)
    (h : ctx.sender.matches_account ctx.owner = false) :
    piggy_smash ctx tOk host = (.error SmashError.NotOwner, host) := by
  simp [piggy_smash, h]

theorem smash_not_owner_witness :
    piggy_smash ⟨0, .account 1⟩ true ⟨PiggyBankState.Intact, 100, []⟩ =
      (.error SmashError.NotOwner, ⟨PiggyBankState.Intact, 100, []⟩) :=
  smash_not_owner ⟨0, .account 1⟩ true ⟨PiggyBankState.Intact, 100, []⟩ (by decide)

/-- Claim C5: `smash` by the owner on `Intact` state with a failing
host-level transfer returns `TransferError`, and the state after the call is
`Smashed`: the mutation precedes the transfer and is not reverted. -/
theorem smash_transfer_failure (ctx : ReceiveContext) (host : Host)
    (hown : ctx.sender.matches_account ctx.owner = true)
    (hst : host.state = PiggyBankState.Intact) :
    piggy_smash ctx false host =
      (.error SmashError.TransferError,
        { host with state := PiggyBankState.Smashed }) := by
  simp [piggy_smash, hown, hst]

theorem smash_transfer_failure_witness :
    piggy_smash ⟨4, .account 4⟩ false ⟨PiggyBankState.Intact, 55, []⟩ =
      (.error SmashError.TransferError, ⟨PiggyBankState.Smashed, 55, []⟩) :=
  smash_transfer_failure ⟨4, .account 4⟩ ⟨PiggyBankState.Intact, 55, []⟩
    (by decide) rfl

/-- Claim C6: `smash` invoked by the owner when the state is not `Intact`
(for instance after a previous successful smash) fails with
`AlreadySmashed` and leaves the host untouched. -/
theorem smash_already_smashed (ctx : ReceiveContext) (tOk : Bool) (host : Host)
    (hown : ctx.sender.matches_account ctx.owner = true)
    (hst : host.state ≠ PiggyBankState.Intact) :
    piggy_smash ctx tOk host = (.error SmashError.AlreadySmashed, host) := by
  simp [piggy_smash, hown, hst]

theorem smash_already_smashed_witness :
    piggy_smash ⟨2, .account 2⟩ true ⟨PiggyBankState.Smashed, 0, [(2, 100)]⟩ =
      (.error SmashError.AlreadySmashed, ⟨PiggyBankState.Smashed, 0, [(2, 100)]⟩) :=
  smash_already_smashed ⟨2, .account 2⟩ true ⟨PiggyBankState.Smashed, 0, [(2, 100)]⟩
    (by decide) (by decide)

/-- Claim C7 counterexample: `insert` on a `Smashed` state rejects with the
generic `Reject::default()` (error code `i32::MIN`), which is not any of the
distinguished codes that `derive(Reject)` assigns to the typed `SmashError`
values; so the rejection is not a distinguished typed error. -/
theorem insert_reject_not_distinguished :
    (piggy_insert ⟨PiggyBankState.Smashed, 17, []⟩ 5).1 = .error Reject.dflt
    ∧ Reject.dflt ≠ SmashError.toReject SmashError.NotOwner
    ∧ Reject.dflt ≠ SmashError.toReject SmashError.AlreadySmashed
    ∧ Reject.dflt ≠ SmashError.toReject SmashError.TransferError :=
  ⟨rfl, by decide, by decide, by decide⟩

/-- Claim C7 (amended): `insert` on a non-`Intact` state returns the generic
default rejection `Reject::default()` — surfaced to the host unchanged — and
not a distinguished typed error value. -/
theorem insert_reject_is_default (host : Host) (amount : Nat)
    (h : host.state ≠ PiggyBankState.Intact) :
    (piggy_insert host amount).1 = .error Reject.dflt := by
  simp [piggy_insert, h]

theorem insert_reject_is_default_witness :
    (piggy_insert ⟨PiggyBankState.Smashed, 9, []⟩ 1).1 = .error Reject.dflt :=
  insert_reject_is_default ⟨PiggyBankState.Smashed, 9, []⟩ 1 (by decide)

/-- Claim C8: for every initialization context, `init` returns success with
state `Intact`; it never fails. -/
theorem init_always_intact (ictx : InitContext) :
    piggy_init ictx = .ok PiggyBankState.Intact := rfl

/-- Claim C9: for every host state and balance, `view` returns success with
the pair (current state, current balance), and the host — state, balance and
transfer list — is unchanged. -/
theorem view_returns_state_and_balance (host : Host) :
    piggy_view host = (.ok (host.state, host.selfBalance), host) := rfl

/-- Claim C10: whenever `smash` fails with `NotOwner` or `AlreadySmashed`,
the host after the call equals the host before it: no state mutation and no
transfer happened, since both guards run before any effect. -/
theorem smash_guard_reject_no_effect (ctx : ReceiveContext) (tOk : Bool)
    (host : Host)
    (h : (piggy_smash ctx tOk host).1 = .error SmashError.NotOwner
        ∨ (piggy_smash ctx tOk host).1 = .error SmashError.AlreadySmashed) :
    (piggy_smash ctx tOk host).2 = host := by
  unfold piggy_smash at h ⊢
  by_cases hm : ctx.sender.matches_account ctx.owner = true
  · by_cases hs : host.state = PiggyBankState.Intact
    · cases tOk <;> simp [hm, hs] at h
    · simp [hm, hs]
  · simp [hm]

theorem smash_guard_reject_no_effect_witness :
    (piggy_smash ⟨0, .account 1⟩ true ⟨PiggyBankState.Intact, 42, []⟩).2
      = ⟨PiggyBankState.Intact, 42, []⟩ :=
  smash_guard_reject_no_effect ⟨0, .account 1⟩ true ⟨PiggyBankState.Intact, 42, []⟩
    (Or.inl rfl)

end PiggyBank
